import Mathlib

set_option maxHeartbeats 1000000

namespace PlanPilot

/-! Data model, following the TypeScript interfaces of `src/src/pages/Index.tsx` and the
spec data model (section 3). Calendar dates are modelled as integer day offsets; the JS
float `progress` is modelled as an exact rational. -/

/-- A single chat message (`Message` in `src/src/pages/Index.tsx`; `ConversationTurn` in
the spec): a role ("user" or "assistant") and text content. -/
structure ConversationTurn where
  role : String
  content : String
  deriving Repr, DecidableEq

/-- One Gantt task (`GanttTask` in `src/src/pages/Index.tsx`); `start_date` is a day
offset, `duration` in days, `progress` a fraction. -/
structure GanttTask where
  id : Int
  text : String
  start_date : Int
  duration : Int
  progress : Rat
  owner : String
  deriving Repr, DecidableEq

/-- One Gantt dependency link (`GanttLink` in `src/src/pages/Index.tsx`); `type` is the
dhtmlx link kind, "0" meaning finish-to-start. -/
structure GanttLink where
  id : Int
  source : Int
  target : Int
  type : String
  deriving Repr, DecidableEq

/-- The task/link graph (`GanttData` in `src/src/pages/Index.tsx`; `GanttGraph` in the
spec). -/
structure GanttData where
  data : List GanttTask
  links : List GanttLink
  deriving Repr, DecidableEq

/-- One technology-stack row (`TechnologyStack` in `src/src/pages/Index.tsx`). -/
structure TechnologyStack where
  component : String
  technology : String
  rationale : String
  deriving Repr, DecidableEq

/-- A full project plan (`PlanData` in `src/src/pages/Index.tsx`; `ProjectPlan` in the
spec). -/
structure PlanData where
  projectName : String
  executiveSummary : String
  keyMilestones : List String
  technologyStack : List TechnologyStack
  resourceSuggestions : List String
  ganttData : GanttData
  deriving Repr, DecidableEq

/-- Modelled from the spec: the Stage 1 error type, carrying the offending field path
(section 4.4); the backend source is not under `src/`. -/
structure SchemaError where
  fieldPath : String
  deriving Repr, DecidableEq

/-- Modelled from the spec: the Stage 2 error type, naming the violated invariant
(section 4.4); the backend source is not under `src/`. -/
structure SemanticError where
  violatedInvariant : String
  deriving Repr, DecidableEq

/-- Modelled from the spec: the model tier failure kinds (section 4.2); the backend
source is not under `src/`. -/
inductive ModelFailure where
  | RateLimited
  | Timeout
  | Unavailable
  | MalformedReply
  deriving Repr, DecidableEq

/-- Modelled from the spec: a raw model reply handed to Stage 1 either fails to parse
into the ProjectPlan shape or parses into a `PlanData` (section 4.4 requires the raw
reply to "parse into the ProjectPlan shape"); the backend source is not under `src/`. -/
inductive RawReply where
  | unparseable (text : String)
  | parsed (plan : PlanData)
  deriving Repr, DecidableEq

/-! Stage 1 validation (structural). -/

/-- Modelled from the spec (section 4.4 Stage 1, section 3 ProjectPlan): required fields
present and non-empty, `durationDays` at least 1, `progressFraction` in the unit
interval; any violation yields a `SchemaError` with the offending field path. The
backend source is not under `src/`. -/
def validateStage1 : RawReply → Except SchemaError PlanData
  | .unparseable _ => .error ⟨"$"⟩
  | .parsed p =>
    if p.projectName = "" then .error ⟨"projectName"⟩
    else if p.executiveSummary = "" then .error ⟨"executiveSummary"⟩
    else if p.keyMilestones = [] then .error ⟨"keyMilestones"⟩
    else if p.technologyStack = [] then .error ⟨"technologyStack"⟩
    else if p.resourceSuggestions = [] then .error ⟨"resourceSuggestions"⟩
    else if p.ganttData.data = [] then .error ⟨"ganttData.data"⟩
    else if !(p.ganttData.data.all (fun t => decide (1 ≤ t.duration))) then
      .error ⟨"ganttData.data.duration"⟩
    else if !(p.ganttData.data.all
        (fun t => decide (0 ≤ t.progress) && decide (t.progress ≤ 1))) then
      .error ⟨"ganttData.data.progress"⟩
    else .ok p

/-! Stage 2 validation (semantic / graph). -/

/-- The directed edge set of a Gantt graph over task ids: one (source, target) pair per
link. -/
def edgesOf (g : GanttData) : List (Int × Int) :=
  g.links.map (fun l => (l.source, l.target))

/-- Fuel-bounded directed reachability by traversal of the edge set: `pathB E f a b` is
true when some directed path of at most `f` edges leads from `a` to `b`. -/
def pathB (E : List (Int × Int)) : Nat → Int → Int → Bool
  | 0, a, b => a == b
  | f + 1, a, b => a == b || E.any (fun e => e.1 == a && pathB E f e.2 b)

/-- Cycle detection via graph traversal over the directed edge set (section 4.4): some
edge whose target reaches back to its source. Fuel `E.length` suffices because a
shortest closing path visits pairwise distinct edge targets. -/
def hasCycleB (E : List (Int × Int)) : Bool :=
  E.any (fun e => pathB E E.length e.2 e.1)

/-- The list of task ids of a graph. -/
def taskIds (g : GanttData) : List Int := g.data.map (·.id)

/-- Referential integrity of one link: both endpoints name an existing task id. -/
def refOkB (g : GanttData) (l : GanttLink) : Bool :=
  (taskIds g).contains l.source && (taskIds g).contains l.target

/-- Finish-to-start date consistency of one link (section 4.4): the target task must not
start before the source task's recomputed finish date (start plus duration). -/
def dateOkB (g : GanttData) (l : GanttLink) : Bool :=
  if l.type = "0" then
    match g.data.find? (fun t => t.id == l.source),
          g.data.find? (fun t => t.id == l.target) with
    | some s, some t => decide (s.start_date + s.duration ≤ t.start_date)
    | _, _ => true
  else true

/-- Modelled from the spec (section 4.4 Stage 2): every link must reference existing
task ids, the link graph must be acyclic (cycle detection via graph traversal; a
self-link is a cycle of length one), and start dates must respect finish-to-start
ordering; any violation yields a `SemanticError` naming the violated invariant. The
backend source is not under `src/`. -/
def validateStage2 (p : PlanData) : Except SemanticError PlanData :=
  let g := p.ganttData
  if g.links.all (refOkB g) then
    if hasCycleB (edgesOf g) then
      .error ⟨"cycle in the task dependency graph"⟩
    else if g.links.all (dateOkB g) then
      .ok p
    else
      .error ⟨"task starts before the finish of a finish-to-start predecessor"⟩
  else
    .error ⟨"dangling link: an endpoint references no existing task id"⟩

/-! Specification-level (propositional) graph properties, used to state what the
validators decide. -/

/-- One directed step along the edge set. -/
def Step (E : List (Int × Int)) (a b : Int) : Prop := (a, b) ∈ E

/-- Directed reachability: a path of zero or more edges. -/
def Reaches (E : List (Int × Int)) : Int → Int → Prop :=
  Relation.ReflTransGen (Step E)

/-- A directed cycle exists: some edge whose target reaches back to its source. -/
def HasCycle (E : List (Int × Int)) : Prop :=
  ∃ e ∈ E, Reaches E e.2 e.1

/-- Explicit directed paths: `Path E a l b` holds when the successive vertices visited
after `a` are exactly `l`, ending at `b`. -/
inductive Path (E : List (Int × Int)) : Int → List Int → Int → Prop
  | nil (a : Int) : Path E a [] a
  | cons {a b c : Int} {l : List Int} :
      (a, b) ∈ E → Path E b l c → Path E a (b :: l) c

/-- Referential integrity of the whole graph: every link endpoint is an existing task
id. -/
def RefsOk (g : GanttData) : Prop :=
  ∀ l ∈ g.links, l.source ∈ taskIds g ∧ l.target ∈ taskIds g

/-- No link connects a task to itself. -/
def NoSelfLinks (g : GanttData) : Prop :=
  ∀ l ∈ g.links, l.source ≠ l.target

/-- Finish-to-start date consistency: for each finish-to-start link, the first task
carrying the source id finishes no later than the first task carrying the target id
starts. -/
def DatesOk (g : GanttData) : Prop :=
  ∀ l ∈ g.links, l.type = "0" →
    ∀ s t, g.data.find? (fun u => u.id == l.source) = some s →
      g.data.find? (fun u => u.id == l.target) = some t →
      s.start_date + s.duration ≤ t.start_date

/-- The structural violations Stage 1 screens for (section 4.4 Stage 1): a missing or
empty required field, a duration below one day, or a progress fraction outside the unit
interval. -/
def Stage1Violation (p : PlanData) : Prop :=
  p.projectName = "" ∨ p.executiveSummary = "" ∨ p.keyMilestones = [] ∨
  p.technologyStack = [] ∨ p.resourceSuggestions = [] ∨ p.ganttData.data = [] ∨
  (∃ t ∈ p.ganttData.data, t.duration < 1) ∨
  (∃ t ∈ p.ganttData.data, t.progress < 0 ∨ 1 < t.progress)

/-! Synthetic plan generator (spec section 4.5) and its keyword helpers. -/

/-- All transcript contents joined into one text, the keyword-matching surface. -/
def transcriptText (t : List ConversationTurn) : String :=
  String.intercalate (" ") (t.map (·.content))

/-- Character-list test: the first list is a leading segment of the second. -/
def isPrefixOfChars : List Char → List Char → Bool
  | [], _ => true
  | _ :: _, [] => false
  | a :: as, b :: bs => a == b && isPrefixOfChars as bs

/-- Character-list substring test. -/
def containsSubChars (pat : List Char) : List Char → Bool
  | [] => pat.isEmpty
  | c :: cs => isPrefixOfChars pat (c :: cs) || containsSubChars pat cs

/-- Case-insensitive keyword test against the whole transcript. -/
def mentions (t : List ConversationTurn) (kw : String) : Bool :=
  containsSubChars kw.toLower.data (transcriptText t).toLower.data

/-- Accumulate a decimal number from leading digit characters. -/
def takeDigits (acc : Nat) : List Char → Nat
  | [] => acc
  | c :: cs => if c.isDigit then takeDigits (acc * 10 + (c.toNat - 48)) cs else acc

/-- The first decimal number occurring in a character list, if any. -/
def firstNatAux : List Char → Option Nat
  | [] => none
  | c :: cs => if c.isDigit then some (takeDigits (c.toNat - 48) cs) else firstNatAux cs

/-- Modelled from the spec (section 4.5): durations are scaled by any timeframe
mentioned in the transcript — here the number of months mentioned, defaulting to 1 —
and the scale is at least 1 by construction. The backend source is not under `src/`. -/
def timeframeScale (t : List ConversationTurn) : Nat :=
  if mentions t ("month") then
    match firstNatAux (transcriptText t).data with
    | some n => Nat.max 1 n
    | none => 1
  else 1

/-- Modelled from the spec (section 4.5): the coarse project category, derived from
keyword matching against the transcript. The backend source is not under `src/`. -/
inductive ProjectCategory where
  | mobile
  | marketing
  | website
  | generic
  deriving Repr, DecidableEq

/-- Modelled from the spec (section 4.5): keyword-driven category selection. The
backend source is not under `src/`. -/
def projectCategory (t : List ConversationTurn) : ProjectCategory :=
  if mentions t ("mobile") then .mobile
  else if mentions t ("marketing") then .marketing
  else if mentions t ("website") then .website
  else .generic

/-- A canned four-phase plan template: a linear finish-to-start chain of four tasks
laid out back to back (spec section 4.5: a small fixed-shape task graph with a linear
dependency structure, no cycles, all ids resolved, positive durations). -/
def mkTemplate (name summary : String) (miles : List String)
    (stack : List TechnologyStack) (res : List String)
    (l1 l2 l3 l4 : String) (d1 d2 d3 d4 : Nat) (o1 o2 o3 o4 : String) : PlanData :=
  { projectName := name
    executiveSummary := summary
    keyMilestones := miles
    technologyStack := stack
    resourceSuggestions := res
    ganttData :=
      { data :=
          [ ⟨1, l1, 0, (d1 : Int), 0, o1⟩,
            ⟨2, l2, (d1 : Int), (d2 : Int), 0, o2⟩,
            ⟨3, l3, (d1 : Int) + (d2 : Int), (d3 : Int), 0, o3⟩,
            ⟨4, l4, (d1 : Int) + (d2 : Int) + (d3 : Int), (d4 : Int), 0, o4⟩ ]
        links :=
          [ ⟨1, 1, 2, "0"⟩, ⟨2, 2, 3, "0"⟩, ⟨3, 3, 4, "0"⟩ ] } }

/-- Modelled from the spec (section 4.5): the canned template selected for a category,
with durations scaled by the timeframe scale `s`. The backend source is not under
`src/`. -/
def templateFor (c : ProjectCategory) (s : Nat) : PlanData :=
  match c with
  | .mobile =>
    mkTemplate ("Mobile App Project") ("A phased plan to design, build and launch a mobile application.")
      [("Design approved"), ("Core features complete"), ("Beta release"), ("App store launch")]
      [⟨("Mobile Frontend"), ("React Native"), ("Cross-platform delivery from one codebase")⟩,
       ⟨("Backend API"), ("FastAPI"), ("Fast, typed Python services")⟩,
       ⟨("Data Store"), ("PostgreSQL"), ("Reliable relational storage")⟩]
      [("1 product designer"), ("2 mobile engineers"), ("1 QA engineer")]
      ("Requirements and design") ("Core development") ("Testing and QA") ("Launch")
      (7 * s) (14 * s) (7 * s) (2 * s)
      ("Design") ("Engineering") ("QA") ("Engineering")
  | .marketing =>
    mkTemplate ("Marketing Campaign Project") ("A phased plan to prepare, run and evaluate a marketing campaign.")
      [("Strategy signed off"), ("Assets produced"), ("Campaign live"), ("Results reviewed")]
      [⟨("Analytics"), ("GA4"), ("Campaign performance tracking")⟩,
       ⟨("Email"), ("Mailchimp"), ("Audience outreach")⟩,
       ⟨("Landing Pages"), ("Webflow"), ("Fast iteration without engineers")⟩]
      [("1 campaign manager"), ("1 content writer"), ("1 designer")]
      ("Strategy and audience research") ("Content production") ("Campaign execution") ("Review and reporting")
      (5 * s) (10 * s) (10 * s) (3 * s)
      ("Marketing") ("Content") ("Marketing") ("Marketing")
  | .website =>
    mkTemplate ("Website Project") ("A phased plan to design, build and ship a website.")
      [("Sitemap agreed"), ("Design approved"), ("Site built"), ("Site live")]
      [⟨("Frontend"), ("React"), ("Component-driven UI")⟩,
       ⟨("Styling"), ("Tailwind CSS"), ("Consistent utility-first styling")⟩,
       ⟨("Hosting"), ("Netlify"), ("Simple continuous deployment")⟩]
      [("1 web designer"), ("1 frontend engineer")]
      ("Information architecture") ("Visual design") ("Implementation") ("Launch and handover")
      (4 * s) (7 * s) (12 * s) (2 * s)
      ("Design") ("Design") ("Engineering") ("Engineering")
  | .generic =>
    mkTemplate ("Project Plan") ("A phased plan covering discovery, build, verification and delivery.")
      [("Scope agreed"), ("Build complete"), ("Verification passed"), ("Delivered")]
      [⟨("Collaboration"), ("Notion"), ("Shared documentation")⟩,
       ⟨("Tracking"), ("Jira"), ("Task and dependency tracking")⟩,
       ⟨("Delivery"), ("GitHub"), ("Versioned delivery")⟩]
      [("1 project manager"), ("2 contributors")]
      ("Discovery and scoping") ("Build") ("Verification") ("Delivery")
      (5 * s) (15 * s) (5 * s) (3 * s)
      ("PM") ("Team") ("QA") ("Team")

/-- Modelled from the spec (section 4.5): the deterministic, keyword-driven synthetic
fallback plan generator — a total function of the transcript, never failing, with no
model call. The backend source is not under `src/`. -/
def synthesize (t : List ConversationTurn) : PlanData :=
  templateFor (projectCategory t) (timeframeScale t)

/-! Model tier client and generation pipeline (spec sections 4.2, 4.3). -/

/-- Modelled from the spec (section 4.2): a tier identifies a backend model with a
quality rank. The backend source is not under `src/`. -/
structure TierSpec where
  name : String
  quality : Nat
  deriving Repr, DecidableEq

/-- Modelled from the spec (section 4.2) and the repository README: the model tier
list, highest quality first. The backend source is not under `src/`. -/
def TIERS : List TierSpec :=
  [⟨"llama-3.3-70b-versatile", 3⟩, ⟨"llama-3.1-8b-instant", 2⟩, ⟨"mixtral-8x7b-32768", 1⟩]

/-- Modelled from the spec (section 4.3): the pipeline state machine — try the tiers in
list order, attempt each at most once, accept the first reply that passes both
validation stages, and fall back to the synthetic generator after the last tier. Each
tier's model-call outcome is supplied by an explicit environment `env`. The result is
the plan paired with the attempted tiers in attempt order. The backend source is not
under `src/`. -/
def runTiers (t : List ConversationTurn)
    (env : TierSpec → Except ModelFailure RawReply) :
    List TierSpec → PlanData × List TierSpec
  | [] => (synthesize t, [])
  | tier :: rest =>
    match env tier with
    | .error _ =>
      let r := runTiers t env rest
      (r.1, tier :: r.2)
    | .ok raw =>
      match validateStage1 raw with
      | .error _ =>
        let r := runTiers t env rest
        (r.1, tier :: r.2)
      | .ok plan =>
        match validateStage2 plan with
        | .error _ =>
          let r := runTiers t env rest
          (r.1, tier :: r.2)
        | .ok plan2 => (plan2, [tier])

/-- Modelled from the spec (sections 4.3 and 6): the caller-facing generation
operation; it can only deliver a plan — there is no error channel. The backend source
is not under `src/`. -/
def generatePlan (t : List ConversationTurn)
    (env : TierSpec → Except ModelFailure RawReply) : PlanData :=
  (runTiers t env TIERS).1

/-- The tiers the pipeline attempted for a request, in attempt order. -/
def attemptedTiers (t : List ConversationTurn)
    (env : TierSpec → Except ModelFailure RawReply) : List TierSpec :=
  (runTiers t env TIERS).2

/-! Sufficiency estimator (spec section 4.1). -/

/-- The estimator's verdict (spec section 3 `SufficiencyResult`): completeness score,
readiness decision, and the follow-up question (empty when none). -/
structure SufficiencyResult where
  score : Nat
  isSufficient : Bool
  nextPrompt : String
  deriving Repr, DecidableEq

/-- Modelled from the spec (section 4.1): the structured model reply, parsed into a
completeness score and a proposed clarifying question. The backend source is not under
`src/`. -/
structure ModelReply where
  score : Nat
  nextPrompt : String
  deriving Repr, DecidableEq

/-- Modelled from the spec (section 4.1): the score at and above which the dialogue is
judged sufficient. The backend source is not under `src/`. -/
def sufficiencyThreshold : Nat := 80

/-- Modelled from the spec (section 4.1): the size of the rolling window of recent
assistant-issued questions used by loop detection. The backend source is not under
`src/`. -/
def K : Nat := 3

/-- Case- and whitespace-insensitive normal form of a question — the near-duplicate
test of loop detection (spec sections 4.1 and 9). -/
def normalizeQuestion (s : String) : String :=
  String.mk ((s.data.filter (fun c => !c.isWhitespace)).map Char.toLower)

/-- The rolling window: the last `K` assistant-issued questions, computed freshly from
the transcript on every call (spec section 9: the transcript is the single source of
truth, no hidden state). -/
def questionWindow (t : List ConversationTurn) : List String :=
  (((t.filter (fun m => m.role == "assistant")).map (·.content)).reverse).take K

/-- Modelled from the spec (section 4.1 Failure): the deterministic heuristic used when
the model call fails — a score derived from transcript length and keyword presence.
The backend source is not under `src/`. -/
def heuristicResult (t : List ConversationTurn) : SufficiencyResult :=
  let base := (transcriptText t).length / 5
  let bonus := (if mentions t ("timeline") then 10 else 0) +
    (if mentions t ("team") then 10 else 0)
  let score := Nat.min 100 (base + bonus)
  { score := score
    isSufficient := decide (sufficiencyThreshold ≤ score)
    nextPrompt :=
      if sufficiencyThreshold ≤ score then ""
      else "Could you describe your project goals, timeline and team in more detail?" }

/-- Modelled from the spec (section 4.1): evaluate a transcript given the underlying
model call's outcome. On failure the estimator degrades to the deterministic
heuristic; on success the reply is parsed into score and question, and loop detection
overrides the decision — forcing `isSufficient` — when the proposed question is a
near-duplicate of one in the window. The backend source is not under `src/`. -/
def evaluate (t : List ConversationTurn) (m : Except ModelFailure ModelReply) :
    SufficiencyResult :=
  match m with
  | .error _ => heuristicResult t
  | .ok r =>
    if (questionWindow t).any
        (fun q => normalizeQuestion q == normalizeQuestion r.nextPrompt) then
      { score := r.score, isSufficient := true, nextPrompt := "" }
    else
      { score := r.score, isSufficient := decide (sufficiencyThreshold ≤ r.score),
        nextPrompt := r.nextPrompt }

/-! Frontend chat state: the success paths of `handleSendMessage` and
`handleSuggestionClick`, and the PDF file naming of `handleDownloadPDF`, all from
`src/src/pages/Index.tsx`. -/

/-- The parsed body of a successful `/chat` response (`src/src/pages/Index.tsx:123`). -/
structure ChatResponse where
  assistantReply : String
  progress : Int
  isSufficient : Bool
  deriving Repr, DecidableEq

/-- The frontend state the chat handlers touch (`src/src/pages/Index.tsx:54-67`). -/
structure ChatState where
  messages : List ConversationTurn
  isReportReady : Bool
  showReportReadyMessage : Bool
  chatProgress : Int
  deriving Repr, DecidableEq

/-- The word-by-word streaming of the assistant reply
(`src/src/pages/Index.tsx:141-153`): split on single spaces, append each word plus a
space, trim for display. -/
def streamedContent (reply : String) : String :=
  ((reply.splitOn (" ")).foldl (fun acc w => acc ++ w ++ " ") "").trim

/-- The blank-input guard of `handleSendMessage` (`src/src/pages/Index.tsx:106`): the
JS `inputValue.trim()` is falsy exactly when the input is all whitespace. -/
def isBlank (input : String) : Bool := input.data.all (·.isWhitespace)

/-- Success path of `handleSendMessage` (`src/src/pages/Index.tsx:104-153`): return
unchanged on blank input, otherwise append the user message and apply the response —
both ready flags follow `isSufficient` in both directions, progress is updated, and
the streamed assistant message is appended. -/
def handleSendMessage (st : ChatState) (input : String) (r : ChatResponse) :
    ChatState :=
  if isBlank input then st
  else
    { messages := st.messages ++
        [⟨"user", input⟩, ⟨"assistant", streamedContent r.assistantReply⟩]
      isReportReady := if r.isSufficient then true else false
      showReportReadyMessage := if r.isSufficient then true else false
      chatProgress := r.progress }

/-- Success path of `handleSuggestionClick` (`src/src/pages/Index.tsx:166-208`): as
`handleSendMessage`, without the blank-input guard. -/
def handleSuggestionClick (st : ChatState) (suggestion : String) (r : ChatResponse) :
    ChatState :=
  { messages := st.messages ++
      [⟨"user", suggestion⟩, ⟨"assistant", streamedContent r.assistantReply⟩]
    isReportReady := if r.isSufficient then true else false
    showReportReadyMessage := if r.isSufficient then true else false
    chatProgress := r.progress }

/-- The character class kept by `handleDownloadPDF` (`src/src/pages/Index.tsx:283`):
the JS replace of the class complementary to `a-zA-Z0-9 ` keeps ASCII letters, digits
and spaces. -/
def keepChar (c : Char) : Bool := c.isAlpha || c.isDigit || c == ' '

/-- The sanitized project name (`src/src/pages/Index.tsx:282-284`): special characters
removed, then spaces replaced by underscores. -/
def sanitized (projectName : String) : String :=
  String.mk ((projectName.data.filter keepChar).map (fun c => if c == ' ' then '_' else c))

/-- The `safeName` of `handleDownloadPDF` (`src/src/pages/Index.tsx:282-285`): the
sanitized name, or the fallback when it is empty (the JS or-else on an empty string). -/
def safeName (projectName : String) : String :=
  if sanitized projectName = "" then "LyzrFlow_Plan" else sanitized projectName

/-- The dynamic PDF file name (`src/src/pages/Index.tsx:286`). -/
def pdfFileName (projectName : String) : String :=
  safeName projectName ++ ".pdf"

/-! Concrete example data used by counterexamples and witnesses. -/

/-- A plan whose graph has valid references, no self-links and no cycle, but a
finish-to-start date violation: task 2 starts on day 0 although task 1 finishes on
day 5. -/
def dateViolationPlan : PlanData :=
  { projectName := "Date Violation"
    executiveSummary := "summary"
    keyMilestones := ["m1"]
    technologyStack := [⟨"c", "t", "r"⟩]
    resourceSuggestions := ["r1"]
    ganttData :=
      { data := [⟨1, "a", 0, 5, 0, "x"⟩, ⟨2, "b", 0, 5, 0, "y"⟩]
        links := [⟨1, 1, 2, "0"⟩] } }

/-- The spec section 8 example: a graph with tasks 1 and 2 and a link from 1 to 3
(a dangling reference). -/
def danglingPlan : PlanData :=
  { projectName := "Dangling"
    executiveSummary := "summary"
    keyMilestones := ["m1"]
    technologyStack := [⟨"c", "t", "r"⟩]
    resourceSuggestions := ["r1"]
    ganttData :=
      { data := [⟨1, "a", 0, 5, 0, "x"⟩, ⟨2, "b", 5, 5, 0, "y"⟩]
        links := [⟨1, 1, 3, "0"⟩] } }

/-- A transcript in which the assistant has already asked the same clarifying question
three times in a row. -/
def stuckTranscript : List ConversationTurn :=
  [⟨"user", "I want to build an app"⟩,
   ⟨"assistant", "What is your timeline?"⟩,
   ⟨"user", "not sure yet"⟩,
   ⟨"assistant", "What is your timeline?"⟩,
   ⟨"user", "still not sure"⟩,
   ⟨"assistant", "What is your timeline?"⟩]

/-- The schema-valid reply tier 3 returns in the tier-fallback scenario. -/
def tier3Plan : PlanData := templateFor .generic 1

/-- The tier-fallback scenario environment: tiers 1 and 2 are rate-limited, tier 3
(quality rank 1) answers with a schema-valid reply. -/
def rl3Env : TierSpec → Except ModelFailure RawReply := fun tier =>
  if tier.quality == 1 then .ok (.parsed tier3Plan) else .error .RateLimited

/-- The transcript of the tier-fallback scenario. -/
def rl3Transcript : List ConversationTurn := [⟨"user", "Plan a project"⟩]

/-- A parsed plan violating Stage 1: its project name is empty. -/
def emptyNamePlan : PlanData :=
  { projectName := ""
    executiveSummary := "summary"
    keyMilestones := ["m1"]
    technologyStack := [⟨"c", "t", "r"⟩]
    resourceSuggestions := ["r1"]
    ganttData := { data := [⟨1, "a", 0, 5, 0, "x"⟩], links := [] } }

/-! Soundness and completeness of the fuel-bounded cycle detection with respect to the
propositional graph model. -/

theorem path_of_reaches {E : List (Int × Int)} {a b : Int} (h : Reaches E a b) :
    ∃ l, Path E a l b := by
  induction h using Relation.ReflTransGen.head_induction_on with
  | refl => exact ⟨[], Path.nil b⟩
  | head hstep _ ih =>
    obtain ⟨l, hl⟩ := ih
    exact ⟨_ :: l, Path.cons hstep hl⟩

theorem reaches_of_path {E : List (Int × Int)} {a b : Int} {l : List Int}
    (h : Path E a l b) : Reaches E a b := by
  induction h with
  | nil a => exact Relation.ReflTransGen.refl
  | cons hmem _ ih => exact Relation.ReflTransGen.head hmem ih

theorem pathB_iff {E : List (Int × Int)} :
    ∀ {f : Nat} {a b : Int},
      pathB E f a b = true ↔ ∃ l, l.length ≤ f ∧ Path E a l b := by
  intro f
  induction f with
  | zero =>
    intro a b
    simp only [pathB, beq_iff_eq]
    constructor
    · rintro rfl
      exact ⟨[], by simp, Path.nil a⟩
    · rintro ⟨l, hl, hp⟩
      have hnil : l = [] := List.eq_nil_of_length_eq_zero (Nat.le_zero.mp hl)
      subst hnil
      cases hp
      rfl
  | succ f ih =>
    intro a b
    simp only [pathB, Bool.or_eq_true, beq_iff_eq, List.any_eq_true, Bool.and_eq_true]
    constructor
    · rintro (rfl | ⟨e, he, h1, h2⟩)
      · exact ⟨[], by simp, Path.nil a⟩
      · obtain ⟨l, hl, hp⟩ := ih.mp h2
        have hmem : (a, e.2) ∈ E := by
          have hpair : (e.1, e.2) = e := rfl
          rw [← h1]
          simpa [hpair] using he
        exact ⟨e.2 :: l, by simpa using Nat.succ_le_succ hl, Path.cons hmem hp⟩
    · rintro ⟨l, hl, hp⟩
      cases hp with
      | nil => exact Or.inl rfl
      | cons hmem hp' =>
        rename_i b' l'
        refine Or.inr ⟨(a, b'), hmem, rfl, ih.mpr ⟨l', ?_, hp'⟩⟩
        simpa using Nat.le_of_succ_le_succ (by simpa using hl)

theorem path_suffix {E : List (Int × Int)} :
    ∀ {l₁ : List Int} {a x c : Int} {l₂ : List Int},
      Path E a (l₁ ++ x :: l₂) c → Path E x l₂ c := by
  intro l₁
  induction l₁ with
  | nil =>
    intro a x c l₂ h
    cases h with
    | cons _ hp => exact hp
  | cons y l₁ ih =>
    intro a x c l₂ h
    cases h with
    | cons _ hp => exact ih hp

theorem path_shorten {E : List (Int × Int)} :
    ∀ (n : Nat) {a c : Int} {l : List Int}, l.length ≤ n → Path E a l c →
      ∃ l', Path E a l' c ∧ l'.Nodup ∧ l' ⊆ l := by
  intro n
  induction n with
  | zero =>
    intro a c l hl hp
    have hnil : l = [] := List.eq_nil_of_length_eq_zero (Nat.le_zero.mp hl)
    subst hnil
    exact ⟨[], hp, List.nodup_nil, by simp⟩
  | succ n ih =>
    intro a c l hl hp
    cases hp with
    | nil => exact ⟨[], Path.nil _, List.nodup_nil, by simp⟩
    | cons hmem hp' =>
      rename_i b l''
      by_cases hb : b ∈ l''
      · obtain ⟨s, t, rfl⟩ := List.mem_iff_append.mp hb
        have hsuf : Path E b t c := path_suffix hp'
        have hlen : (b :: t).length ≤ n := by
          simp only [List.length_cons, List.length_append] at hl ⊢
          omega
        obtain ⟨l', hP, hN, hS⟩ := ih hlen (Path.cons hmem hsuf)
        refine ⟨l', hP, hN, hS.trans ?_⟩
        exact List.cons_subset_cons b
          ((List.subset_cons_of_subset b (List.Subset.refl t)).trans
            (List.subset_append_right s (b :: t)))
      · have hlen : l''.length ≤ n := by
          simp only [List.length_cons] at hl
          omega
        obtain ⟨m, hP, hN, hS⟩ := ih hlen hp'
        refine ⟨b :: m, Path.cons hmem hP, ?_, List.cons_subset_cons b hS⟩
        exact List.nodup_cons.mpr ⟨fun hbm => hb (hS hbm), hN⟩

theorem path_subset_targets {E : List (Int × Int)} {a c : Int} {l : List Int}
    (hp : Path E a l c) : l ⊆ E.map Prod.snd := by
  induction hp with
  | nil => simp
  | cons hmem _ ih =>
    intro x hx
    rcases List.mem_cons.mp hx with rfl | hx
    · exact List.mem_map.mpr ⟨_, hmem, rfl⟩
    · exact ih hx

theorem hasCycleB_iff {E : List (Int × Int)} : hasCycleB E = true ↔ HasCycle E := by
  unfold hasCycleB HasCycle
  rw [List.any_eq_true]
  constructor
  · rintro ⟨e, he, hpb⟩
    obtain ⟨l, _, hp⟩ := pathB_iff.mp hpb
    exact ⟨e, he, reaches_of_path hp⟩
  · rintro ⟨e, he, hr⟩
    obtain ⟨l, hp⟩ := path_of_reaches hr
    obtain ⟨l', hP, hN, _⟩ := path_shorten l.length (le_refl _) hp
    refine ⟨e, he, pathB_iff.mpr ⟨l', ?_, hP⟩⟩
    calc l'.length ≤ (E.map Prod.snd).length :=
        (List.subperm_of_subset hN (path_subset_targets hP)).length_le
      _ = E.length := List.length_map _ _

theorem refsOk_iff (g : GanttData) :
    g.links.all (refOkB g) = true ↔ RefsOk g := by
  unfold RefsOk refOkB
  simp [List.all_eq_true, List.contains, List.elem_iff]

theorem dateOkB_iff (g : GanttData) (l : GanttLink) :
    dateOkB g l = true ↔
      (l.type = "0" → ∀ s t, g.data.find? (fun u => u.id == l.source) = some s →
        g.data.find? (fun u => u.id == l.target) = some t →
        s.start_date + s.duration ≤ t.start_date) := by
  unfold dateOkB
  by_cases ht : l.type = "0"
  · rw [if_pos ht]
    cases hs : g.data.find? (fun u => u.id == l.source) with
    | none => simp [hs]
    | some s =>
      cases htg : g.data.find? (fun u => u.id == l.target) with
      | none => simp [htg]
      | some t => simp [hs, htg, ht]
  · rw [if_neg ht]
    simp [ht]

theorem datesOk_iff (g : GanttData) :
    g.links.all (dateOkB g) = true ↔ DatesOk g := by
  rw [List.all_eq_true]
  unfold DatesOk
  constructor
  · intro h l hl
    exact (dateOkB_iff g l).mp (h l hl)
  · intro h l hl
    exact (dateOkB_iff g l).mpr (h l hl)

theorem validateStage2_ok_iff (p : PlanData) :
    validateStage2 p = .ok p ↔
      RefsOk p.ganttData ∧ ¬ HasCycle (edgesOf p.ganttData) ∧ DatesOk p.ganttData := by
  simp only [validateStage2]
  by_cases h1 : p.ganttData.links.all (refOkB p.ganttData) = true
  · by_cases h2 : hasCycleB (edgesOf p.ganttData) = true
    · rw [if_pos h1, if_pos h2]
      constructor
      · intro h
        cases h
      · rintro ⟨_, hnc, _⟩
        exact absurd (hasCycleB_iff.mp h2) hnc
    · by_cases h3 : p.ganttData.links.all (dateOkB p.ganttData) = true
      · rw [if_pos h1, if_neg h2, if_pos h3]
        constructor
        · intro _
          exact ⟨(refsOk_iff _).mp h1, fun hc => h2 (hasCycleB_iff.mpr hc),
            (datesOk_iff _).mp h3⟩
        · intro _
          rfl
      · rw [if_pos h1, if_neg h2, if_neg h3]
        constructor
        · intro h
          cases h
        · rintro ⟨_, _, hd⟩
          exact (h3 ((datesOk_iff _).mpr hd)).elim
  · rw [if_neg h1]
    constructor
    · intro h
      cases h
    · rintro ⟨hr, _, _⟩
      exact (h1 ((refsOk_iff _).mpr hr)).elim

theorem validateStage2_classify (p : PlanData) :
    validateStage2 p = .ok p ∨ ∃ e, validateStage2 p = .error e := by
  simp only [validateStage2]
  split
  · split
    · exact Or.inr ⟨_, rfl⟩
    · split
      · exact Or.inl rfl
      · exact Or.inr ⟨_, rfl⟩
  · exact Or.inr ⟨_, rfl⟩

theorem validateStage2_ok_inv {p q : PlanData} (h : validateStage2 p = .ok q) :
    q = p := by
  simp only [validateStage2] at h
  split at h
  · split at h
    · cases h
    · split at h
      · cases h
        rfl
      · cases h
  · cases h

theorem validateStage1_ok_inv {r : RawReply} {p : PlanData}
    (h : validateStage1 r = .ok p) : r = .parsed p := by
  cases r with
  | unparseable s => simp [validateStage1] at h
  | parsed q =>
    simp only [validateStage1] at h
    repeat' split at h
    all_goals simp_all

theorem validateStage1_classify (r : RawReply) :
    (∃ p, r = .parsed p ∧ validateStage1 r = .ok p) ∨
      ∃ e, validateStage1 r = .error e := by
  cases r with
  | unparseable s => exact Or.inr ⟨_, rfl⟩
  | parsed p =>
    simp only [validateStage1]
    repeat' split
    all_goals first
      | exact Or.inr ⟨_, rfl⟩
      | exact Or.inl ⟨p, rfl, rfl⟩

theorem validateStage1_ok_iff (p : PlanData) :
    validateStage1 (.parsed p) = .ok p ↔ ¬ Stage1Violation p := by
  unfold Stage1Violation
  simp only [validateStage1]
  split_ifs with h1 h2 h3 h4 h5 h6 h7 h8
  all_goals simp_all [List.all_eq_true, not_le, not_lt, not_and_or]

theorem reaches_le {E : List (Int × Int)} (hE : ∀ e ∈ E, e.1 < e.2) {a b : Int}
    (h : Reaches E a b) : a ≤ b := by
  induction h with
  | refl => exact le_refl a
  | tail _ hstep ih => exact ih.trans (le_of_lt (hE _ hstep))

theorem no_cycle_of_increasing {E : List (Int × Int)} (hE : ∀ e ∈ E, e.1 < e.2) :
    ¬ HasCycle E := by
  rintro ⟨e, he, hr⟩
  exact absurd (reaches_le hE hr) (not_le.mpr (hE e he))

theorem timeframeScale_pos (t : List ConversationTurn) : 1 ≤ timeframeScale t := by
  unfold timeframeScale
  split
  · split
    · exact Nat.le_max_left 1 _
    · exact le_refl 1
  · exact le_refl 1

theorem mkTemplate_stage1 {name summary : String} {miles : List String}
    {stack : List TechnologyStack} {res : List String}
    {l1 l2 l3 l4 : String} {d1 d2 d3 d4 : Nat} {o1 o2 o3 o4 : String}
    (hname : name ≠ "") (hsum : summary ≠ "") (hm : miles ≠ []) (hst : stack ≠ [])
    (hres : res ≠ []) (h1 : 1 ≤ d1) (h2 : 1 ≤ d2) (h3 : 1 ≤ d3) (h4 : 1 ≤ d4) :
    validateStage1
        (.parsed (mkTemplate name summary miles stack res l1 l2 l3 l4 d1 d2 d3 d4 o1 o2 o3 o4)) =
      .ok (mkTemplate name summary miles stack res l1 l2 l3 l4 d1 d2 d3 d4 o1 o2 o3 o4) := by
  have hd1 : (1 : Int) ≤ (d1 : Int) := by exact_mod_cast h1
  have hd2 : (1 : Int) ≤ (d2 : Int) := by exact_mod_cast h2
  have hd3 : (1 : Int) ≤ (d3 : Int) := by exact_mod_cast h3
  have hd4 : (1 : Int) ≤ (d4 : Int) := by exact_mod_cast h4
  simp [validateStage1, mkTemplate, hname, hsum, hm, hst, hres, hd1, hd2, hd3, hd4]

theorem mkTemplate_stage2 {name summary : String} {miles : List String}
    {stack : List TechnologyStack} {res : List String}
    {l1 l2 l3 l4 : String} {d1 d2 d3 d4 : Nat} {o1 o2 o3 o4 : String} :
    validateStage2 (mkTemplate name summary miles stack res l1 l2 l3 l4 d1 d2 d3 d4 o1 o2 o3 o4) =
      .ok (mkTemplate name summary miles stack res l1 l2 l3 l4 d1 d2 d3 d4 o1 o2 o3 o4) := by
  rw [validateStage2_ok_iff]
  refine ⟨?_, ?_, ?_⟩
  · intro l hl
    simp only [mkTemplate, List.mem_cons, List.not_mem_nil, or_false] at hl
    rcases hl with rfl | rfl | rfl <;> simp [taskIds, mkTemplate]
  · apply no_cycle_of_increasing
    intro e he
    simp only [mkTemplate, edgesOf, List.map_cons, List.map_nil, List.mem_cons,
      List.not_mem_nil, or_false] at he
    rcases he with rfl | rfl | rfl <;> norm_num
  · intro l hl htype s t hs htg
    simp only [mkTemplate, List.mem_cons, List.not_mem_nil, or_false] at hl
    rcases hl with rfl | rfl | rfl <;>
      (simp [mkTemplate, List.find?] at hs htg; subst hs; subst htg; simp)

theorem templateFor_stage1 (c : ProjectCategory) (s : Nat) (hs : 1 ≤ s) :
    validateStage1 (.parsed (templateFor c s)) = .ok (templateFor c s) := by
  cases c <;>
    exact mkTemplate_stage1 (by decide) (by decide) (by decide) (by decide) (by decide)
      (by omega) (by omega) (by omega) (by omega)

theorem templateFor_stage2 (c : ProjectCategory) (s : Nat) :
    validateStage2 (templateFor c s) = .ok (templateFor c s) := by
  cases c <;> exact mkTemplate_stage2

theorem synthesize_stage1 (t : List ConversationTurn) :
    validateStage1 (.parsed (synthesize t)) = .ok (synthesize t) :=
  templateFor_stage1 _ _ (timeframeScale_pos t)

theorem synthesize_stage2 (t : List ConversationTurn) :
    validateStage2 (synthesize t) = .ok (synthesize t) :=
  templateFor_stage2 _ _

theorem runTiers_valid (t : List ConversationTurn)
    (env : TierSpec → Except ModelFailure RawReply) (ts : List TierSpec) :
    validateStage1 (.parsed (runTiers t env ts).1) = .ok (runTiers t env ts).1 ∧
      validateStage2 (runTiers t env ts).1 = .ok (runTiers t env ts).1 := by
  induction ts with
  | nil => exact ⟨synthesize_stage1 t, synthesize_stage2 t⟩
  | cons tier rest ih =>
    simp only [runTiers]
    cases henv : env tier with
    | error f => simpa using ih
    | ok raw =>
      cases h1 : validateStage1 raw with
      | error e =>
        simp only [h1]
        simpa using ih
      | ok plan =>
        simp only [h1]
        cases h2 : validateStage2 plan with
        | error e =>
          simp only [h2]
          simpa using ih
        | ok plan2 =>
          simp only [h2]
          have hp2 : plan2 = plan := validateStage2_ok_inv h2
          subst hp2
          have hr : raw = .parsed plan2 := validateStage1_ok_inv h1
          subst hr
          exact ⟨h1, h2⟩

theorem runTiers_log_take (t : List ConversationTurn)
    (env : TierSpec → Except ModelFailure RawReply) (ts : List TierSpec) :
    ∃ n, (runTiers t env ts).2 = ts.take n := by
  induction ts with
  | nil => exact ⟨0, rfl⟩
  | cons tier rest ih =>
    simp only [runTiers]
    cases henv : env tier with
    | error f =>
      obtain ⟨n, hn⟩ := ih
      exact ⟨n + 1, by simp [hn]⟩
    | ok raw =>
      cases h1 : validateStage1 raw with
      | error e =>
        obtain ⟨n, hn⟩ := ih
        exact ⟨n + 1, by simp [h1, hn]⟩
      | ok plan =>
        cases h2 : validateStage2 plan with
        | error e =>
          obtain ⟨n, hn⟩ := ih
          exact ⟨n + 1, by simp [h1, h2, hn]⟩
        | ok plan2 => exact ⟨1, by simp [h1, h2]⟩

theorem runTiers_all_fail (t : List ConversationTurn)
    (env : TierSpec → Except ModelFailure RawReply) (ts : List TierSpec)
    (h : ∀ tier ∈ ts, ∃ f, env tier = .error f) :
    (runTiers t env ts).1 = synthesize t := by
  induction ts with
  | nil => rfl
  | cons tier rest ih =>
    obtain ⟨f, hf⟩ := h tier (List.mem_cons_self tier rest)
    simp only [runTiers, hf]
    exact ih (fun x hx => h x (List.mem_cons_of_mem tier hx))

/-! The claims. -/

/-- C1: for every transcript, `generatePlan` never surfaces a model failure or
validator error — its result type has no error channel — and even when every model
tier fails its value is the deterministic synthetic plan. -/
theorem generatePlan_total_outage (t : List ConversationTurn)
    (env : TierSpec → Except ModelFailure RawReply)
    (h : ∀ tier ∈ TIERS, ∃ f, env tier = .error f) :
    generatePlan t env = synthesize t :=
  runTiers_all_fail t env TIERS h

/-- C1 witness: with every tier rate-limited, the pipeline returns the synthetic
plan for the empty transcript. -/
theorem generatePlan_total_outage_witness :
    generatePlan [] (fun _ => .error .RateLimited) = synthesize [] :=
  generatePlan_total_outage [] (fun _ => .error .RateLimited)
    (fun _ _ => ⟨.RateLimited, rfl⟩)

/-- C2: for every transcript and every environment of tier outcomes, the plan
`generatePlan` returns passes Stage 1 and Stage 2 validation when re-checked
independently, whichever tier or the synthetic fallback produced it. -/
theorem generatePlan_always_valid (t : List ConversationTurn)
    (env : TierSpec → Except ModelFailure RawReply) :
    validateStage1 (.parsed (generatePlan t env)) = .ok (generatePlan t env) ∧
      validateStage2 (generatePlan t env) = .ok (generatePlan t env) :=
  runTiers_valid t env TIERS

/-- C3 counterexample: Stage 2 does not accept every graph with resolved references,
no self-links and no cycle — the finish-to-start date check also rejects: this plan
meets all three graph conditions yet is rejected with a `SemanticError`. -/
theorem stage2_rejects_beyond_refs_and_cycles :
    RefsOk dateViolationPlan.ganttData ∧ NoSelfLinks dateViolationPlan.ganttData ∧
      ¬ HasCycle (edgesOf dateViolationPlan.ganttData) ∧
      validateStage2 dateViolationPlan =
        .error ⟨"task starts before the finish of a finish-to-start predecessor"⟩ := by
  refine ⟨?_, ?_, ?_, ?_⟩
  · intro l hl
    simp only [dateViolationPlan, List.mem_cons, List.not_mem_nil, or_false] at hl
    subst hl
    simp [taskIds, dateViolationPlan]
  · intro l hl
    simp only [dateViolationPlan, List.mem_cons, List.not_mem_nil, or_false] at hl
    subst hl
    decide
  · intro hc
    exact absurd (hasCycleB_iff.mpr hc) (by decide)
  · rfl

/-- C3 (amended): `validateStage2` accepts a plan exactly when every link endpoint
resolves to an existing task id, the link graph is acyclic (which in particular
excludes self-links), and every finish-to-start link respects date ordering; and the
example graph with tasks 1 and 2 and a link from 1 to 3 is rejected with a
`SemanticError` naming the dangling reference. -/
theorem validateStage2_characterization :
    (∀ p : PlanData, validateStage2 p = .ok p ↔
      RefsOk p.ganttData ∧ ¬ HasCycle (edgesOf p.ganttData) ∧ DatesOk p.ganttData) ∧
    validateStage2 danglingPlan =
      .error ⟨"dangling link: an endpoint references no existing task id"⟩ :=
  ⟨validateStage2_ok_iff, rfl⟩

/-- C3 witness: the acceptance characterization instantiated at the date-violating
plan. -/
theorem validateStage2_characterization_witness :
    validateStage2 dateViolationPlan = .ok dateViolationPlan ↔
      RefsOk dateViolationPlan.ganttData ∧
        ¬ HasCycle (edgesOf dateViolationPlan.ganttData) ∧
        DatesOk dateViolationPlan.ganttData :=
  validateStage2_characterization.1 dateViolationPlan

/-- C4: when the question the model proposes is a near-duplicate — case- and
whitespace-insensitive — of a question already among the last K = 3 assistant-issued
questions, `evaluate` forces `isSufficient = true` instead of re-asking; in
particular a dialogue repeating the same question is forced sufficient by the fourth
evaluation. -/
theorem evaluate_loop_detection (t : List ConversationTurn) (r : ModelReply)
    (h : ∃ q ∈ questionWindow t, normalizeQuestion q = normalizeQuestion r.nextPrompt) :
    (evaluate t (.ok r)).isSufficient = true := by
  obtain ⟨q, hq, he⟩ := h
  have hcond : (questionWindow t).any
      (fun q => normalizeQuestion q == normalizeQuestion r.nextPrompt) = true :=
    List.any_eq_true.mpr ⟨q, hq, beq_iff_eq.mpr he⟩
  simp only [evaluate, hcond, if_true]

/-- C4 witness: after the same question was asked three times, the fourth evaluation
proposing it again is forced to `isSufficient = true`. -/
theorem evaluate_loop_detection_witness :
    (evaluate stuckTranscript (.ok ⟨50, "What is your timeline?"⟩)).isSufficient =
      true :=
  evaluate_loop_detection stuckTranscript ⟨50, "What is your timeline?"⟩
    ⟨"What is your timeline?", by decide, rfl⟩

/-- C5: the pipeline attempts tiers sequentially in strictly descending quality order
and each at most once — the attempt log is always an order-preserving prefix of the
tier list, without repeats and strictly descending in quality — and in the scenario
where tiers 1 and 2 are rate-limited and tier 3 replies with a schema-valid plan, the
output equals tier 3's validated reply and every tier was attempted exactly once. -/
theorem tier_fallback_ordering :
    (∀ (t : List ConversationTurn) (env : TierSpec → Except ModelFailure RawReply),
      ∃ n, attemptedTiers t env = TIERS.take n) ∧
    (∀ (t : List ConversationTurn) (env : TierSpec → Except ModelFailure RawReply),
      (attemptedTiers t env).Nodup ∧
        List.Pairwise (fun a b => b.quality < a.quality) (attemptedTiers t env)) ∧
    generatePlan rl3Transcript rl3Env = tier3Plan ∧
    attemptedTiers rl3Transcript rl3Env = TIERS ∧
    (attemptedTiers rl3Transcript rl3Env).count ⟨"llama-3.3-70b-versatile", 3⟩ = 1 ∧
    (attemptedTiers rl3Transcript rl3Env).count ⟨"llama-3.1-8b-instant", 2⟩ = 1 ∧
    (attemptedTiers rl3Transcript rl3Env).count ⟨"mixtral-8x7b-32768", 1⟩ = 1 := by
  have hlog : ∀ (t : List ConversationTurn)
      (env : TierSpec → Except ModelFailure RawReply),
      ∃ n, attemptedTiers t env = TIERS.take n :=
    fun t env => runTiers_log_take t env TIERS
  refine ⟨hlog, ?_, ?_, ?_, ?_, ?_, ?_⟩
  · intro t env
    obtain ⟨n, hn⟩ := hlog t env
    rw [hn]
    constructor
    · exact (List.take_sublist n TIERS).nodup (by decide)
    · exact List.Pairwise.sublist (List.take_sublist n TIERS) (by decide)
  · decide
  · decide
  · decide
  · decide
  · decide

/-- C5 witness: the prefix property instantiated at a concrete transcript and the
all-timeout environment. -/
theorem tier_fallback_ordering_witness :
    ∃ n, attemptedTiers [] (fun _ => .error .Timeout) = TIERS.take n :=
  tier_fallback_ordering.1 [] (fun _ => .error .Timeout)

/-- C6: Stage 1 classifies exactly — an unparseable reply yields a `SchemaError`
(with path "$"); a parsed plan is returned unchanged exactly when no required field
is missing or empty and every numeric field is in range; any violation yields a
`SchemaError`. -/
theorem validateStage1_characterization :
    (∀ s, validateStage1 (.unparseable s) = .error ⟨"$"⟩) ∧
    (∀ p : PlanData, validateStage1 (.parsed p) = .ok p ↔ ¬ Stage1Violation p) ∧
    (∀ p : PlanData, Stage1Violation p → ∃ e, validateStage1 (.parsed p) = .error e) := by
  refine ⟨fun s => rfl, validateStage1_ok_iff, ?_⟩
  intro p hv
  rcases validateStage1_classify (.parsed p) with ⟨q, hq, hok⟩ | he
  · cases hq
    exact absurd hv ((validateStage1_ok_iff p).mp hok)
  · exact he

/-- C6 witness: a plan with an empty project name is rejected by Stage 1. -/
theorem validateStage1_characterization_witness :
    ∃ e, validateStage1 (.parsed emptyNamePlan) = .error e :=
  validateStage1_characterization.2.2 emptyNamePlan (Or.inl rfl)

/-- C7: the Sufficiency Estimator never propagates a failure of the underlying model
call — for every transcript and every failure kind it returns the deterministic
heuristic result computed from the transcript. -/
theorem evaluate_degrades_on_failure (t : List ConversationTurn) (f : ModelFailure) :
    evaluate t (.error f) = heuristicResult t :=
  rfl

/-- C8: both validators are pure classifiers — each either returns its input
unchanged as the success value or an error that merely classifies it: Stage 2 on
success returns exactly the plan it was given, and Stage 1 on success returns exactly
the parsed payload of the reply it was given. -/
theorem validators_pure :
    (∀ p : PlanData, validateStage2 p = .ok p ∨ ∃ e, validateStage2 p = .error e) ∧
    (∀ r : RawReply, (∃ p, r = .parsed p ∧ validateStage1 r = .ok p) ∨
      ∃ e, validateStage1 r = .error e) :=
  ⟨validateStage2_classify, validateStage1_classify⟩

/-- C9: for every project name, the derived PDF file name is non-empty and
filesystem-safe — a non-empty base of ASCII letters, digits and underscores followed
by ".pdf" — and when the sanitized name is empty it falls back to
"LyzrFlow_Plan.pdf". -/
theorem pdfFileName_safe (s : String) :
    pdfFileName s = safeName s ++ ".pdf" ∧ safeName s ≠ "" ∧
      (∀ c ∈ (safeName s).data, c.isAlpha = true ∨ c.isDigit = true ∨ c = '_') ∧
      (sanitized s = "" → pdfFileName s = "LyzrFlow_Plan.pdf") := by
  refine ⟨rfl, ?_, ?_, ?_⟩
  · unfold safeName
    split
    · decide
    · assumption
  · by_cases hempty : sanitized s = ""
    · rw [safeName, if_pos hempty]
      decide
    · rw [safeName, if_neg hempty]
      intro c hc
      unfold sanitized at hc
      simp only [String.mk] at hc
      obtain ⟨c₀, hc₀, rfl⟩ := List.mem_map.mp hc
      have hk : keepChar c₀ = true := List.of_mem_filter hc₀
      simp only [keepChar, Bool.or_eq_true, beq_iff_eq] at hk
      by_cases hsp : c₀ = ' '
      · subst hsp
        simp
      · rcases hk with (h | h) | h
        · simp [hsp, h]
        · simp [hsp, h]
        · exact absurd h hsp
  · intro h
    simp [pdfFileName, safeName, h]

/-- C9 witness: a name of special characters only sanitizes to the empty string and
falls back to the canned file name. -/
theorem pdfFileName_safe_witness :
    pdfFileName ("!!!") = "LyzrFlow_Plan.pdf" :=
  (pdfFileName_safe ("!!!")).2.2.2 (by decide)

/-- C10: after every successfully processed chat response, the frontend ready flags
equal the response's `isSufficient` in both directions — set on true, reset on false,
never latched across an insufficient evaluation — for `handleSendMessage` on
non-blank input and unconditionally for `handleSuggestionClick`. -/
theorem readyFlag_tracks_isSufficient :
    (∀ (st : ChatState) (input : String) (r : ChatResponse), isBlank input = false →
      (handleSendMessage st input r).isReportReady = r.isSufficient ∧
        (handleSendMessage st input r).showReportReadyMessage = r.isSufficient) ∧
    (∀ (st : ChatState) (sg : String) (r : ChatResponse),
      (handleSuggestionClick st sg r).isReportReady = r.isSufficient ∧
        (handleSuggestionClick st sg r).showReportReadyMessage = r.isSufficient) := by
  constructor
  · intro st input r h
    simp only [handleSendMessage, h, Bool.false_eq_true, if_false]
    cases r.isSufficient <;> simp
  · intro st sg r
    simp only [handleSuggestionClick]
    cases r.isSufficient <;> simp

/-- C10 witness: a ready state is reset by a later insufficient response. -/
theorem readyFlag_tracks_isSufficient_witness :
    (handleSendMessage ⟨[], true, true, 60⟩ ("Build an app") ⟨"ok", 40, false⟩).isReportReady =
        false ∧
      (handleSendMessage ⟨[], true, true, 60⟩ ("Build an app")
          ⟨"ok", 40, false⟩).showReportReadyMessage = false :=
  readyFlag_tracks_isSufficient.1 ⟨[], true, true, 60⟩ ("Build an app") ⟨"ok", 40, false⟩
    (by decide)

theorem sendMessage_blank_guard (st : ChatState) (r : ChatResponse) (input : String)
    (h : isBlank input = true) : handleSendMessage st input r = st := by
  simp [handleSendMessage, h]

end PlanPilot
